import Mathlib

/-!
Shallow embedding of `aries_cloudagent/wallet/askar.py`: the pack/unpack
envelope protocol (module-level `pack_message`, `unpack_message`,
`extract_payload_key`), the wallet-boundary `AskarWallet.pack_message`, and
the DID record operations `create_local_did`, `rotate_did_keypair_start`,
`rotate_did_keypair_apply`.

Modelling conventions:
- Verkeys (base58 text of Ed25519 public key bytes) are abstract identifiers
  of type `Nat`.  All identifiers denote valid keys; base58 encoding and
  decoding are injective and elided.
- A locally held Ed25519 secret key is `SecretKey`, identified by its verkey
  (`verkeyOf`); the Ed25519 to X25519 birational conversion is the injective
  map `xOfEd` on public identifiers (modelled as the identity on abstract
  identifiers, which preserves exactly its distinctness behaviour).
- The cryptographic primitives from `aries_askar` (`crypto_box_seal`,
  `crypto_box`, AEAD) are modelled symbolically: encryption is a constructor
  of the term algebra `CryptBytes`, and the matching open/decrypt operation
  succeeds exactly on a term built by the matching constructor with the
  matching keys and nonce, failing (`none`, the Python `AskarError`)
  otherwise.
- Randomness (the fresh CEK, the per-recipient box nonces, the AEAD nonce)
  is passed in as explicit parameters.
- The JWE codec (`utils/jwe.py`, outside the provided sources) is modelled,
  per the spec's codec contract of deterministic round-tripping, as the
  identity on the structured envelope: `pack_message` produces a
  `JweEnvelope` value and `unpack_message` consumes one.
-/

deriving instance DecidableEq for Except

/-- An Ed25519 keypair held in the key store, identified by its verkey. -/
structure SecretKey where
  sk : Nat
deriving DecidableEq

/-- Verkey (public identifier) of a secret key, `bytes_to_b58(get_public_bytes())`. -/
def verkeyOf (k : SecretKey) : Nat := k.sk

/-- Conversion of an Ed25519 public identifier to its X25519 key-agreement
form (`convert_key(KeyAlg.X25519)`): an injective map, modelled as the
identity on abstract identifiers. -/
def xOfEd (vk : Nat) : Nat := vk

/-- The protected header assembled by `pack_message`: an ordered record of
`enc`, `typ` and `alg`.  Its canonical serialized bytes (used as AEAD
associated data) are modelled by the structure itself, since the
serialization is deterministic and injective. -/
structure ProtectedHeader where
  enc : String
  typ : String
  alg : String
deriving DecidableEq

/-- Symbolic byte strings produced and consumed by the cryptographic
primitives of `aries_askar`. -/
inductive CryptBytes where
  /-- The UTF-8 bytes of a verkey (the sealed sender identity plaintext). -/
  | vkBytes (v : Nat)
  /-- The secret bytes of a content-encryption key (`key_get_secret_bytes`). -/
  | cekBytes (c : Nat)
  /-- `crypto_box_seal(pk, m)`: anonymous sealed box to X25519 public key `pk`. -/
  | sealedBox (pk : Nat) (m : CryptBytes)
  /-- `crypto_box(rpk, s, m, n)`: authenticated box to recipient X25519 public
  key `rpk` from the sender whose X25519 public key is `spk`, under nonce `n`. -/
  | cryptoBox (rpk : Nat) (spk : Nat) (m : CryptBytes) (n : Nat)
  /-- `aead_encrypt(m, n, aad)` under CEK `cek`: the concatenated
  ciphertext-and-tag output. -/
  | aeadEnc (cek : Nat) (m : String) (n : Nat) (aad : ProtectedHeader)
  /-- All but the final 16 bytes of an AEAD output (`ciphertext[:-16]`). -/
  | ctPart (e : CryptBytes)
  /-- The final 16 bytes of an AEAD output (`ciphertext[-16:]`). -/
  | tagPart (e : CryptBytes)
  /-- A concatenation that does not reassemble a split AEAD output. -/
  | concatBytes (a b : CryptBytes)
deriving DecidableEq

/-- Concatenation `ciphertext + tag` as performed by `unpack_message`:
reassembling the two parts of a split AEAD output yields that output. -/
def appendBytes : CryptBytes → CryptBytes → CryptBytes
  | CryptBytes.ctPart e, t =>
      if t = CryptBytes.tagPart e then e else CryptBytes.concatBytes (CryptBytes.ctPart e) t
  | a, t => CryptBytes.concatBytes a t

/-- `crypto_box_seal_open(recip_x, c)`: opens a sealed box addressed to the
recipient's X25519 public key; `none` models the raised `AskarError`. -/
def crypto_box_seal_open (recip : SecretKey) (c : CryptBytes) : Option CryptBytes :=
  match c with
  | CryptBytes.sealedBox pk m => if pk = xOfEd (verkeyOf recip) then some m else none
  | _ => none

/-- `crypto_box_open(recip_x, sender_x, c, nonce)`: opens an authenticated box
between the given keypairs under the given nonce. -/
def crypto_box_open (recip : SecretKey) (sender_pk : Nat) (c : CryptBytes) (nonce : Nat) :
    Option CryptBytes :=
  match c with
  | CryptBytes.cryptoBox rpk spk m n =>
      if rpk = xOfEd (verkeyOf recip) ∧ spk = sender_pk ∧ n = nonce then some m else none
  | _ => none

/-- Decoding opened sender-identity bytes back to a verkey
(`.decode("utf-8")` followed by base58 validation downstream). -/
def decodeVk : CryptBytes → Option Nat
  | CryptBytes.vkBytes v => some v
  | _ => none

/-- `Key.from_secret_bytes(KeyAlg.C20P, payload_key)`: succeeds only on
actual CEK secret bytes. -/
def toCekKey : CryptBytes → Option Nat
  | CryptBytes.cekBytes c => some c
  | _ => none

/-- `cek.aead_decrypt(ciphertext, nonce, aad)`. -/
def aead_decrypt (cek : Nat) (ct : CryptBytes) (nonce : Nat) (aad : ProtectedHeader) :
    Option String :=
  match ct with
  | CryptBytes.aeadEnc k m n a => if k = cek ∧ n = nonce ∧ a = aad then some m else none
  | _ => none

/-- One entry of the envelope's `recipients` array:
`{header: {kid, sender?, iv?}, encrypted_key}`. -/
structure JweRecipient where
  encrypted_key : CryptBytes
  kid : Nat
  sender : Option CryptBytes
  iv : Option Nat
deriving DecidableEq

/-- The structured JWE envelope (`protected`, `recipients`, `iv`,
`ciphertext`, `tag`), with binary fields held directly (base64url encoding
being injective and elided). -/
structure JweEnvelope where
  protectedHdr : ProtectedHeader
  recipients : List JweRecipient
  iv : Nat
  ciphertext : CryptBytes
  tag : CryptBytes
deriving DecidableEq

/-- One iteration of the recipient loop of `pack_message`: builds the entry
for `target_vk`, in Authcrypt form when a sender key is given (wrapping the
CEK in an authenticated box under a fresh nonce and sealing the sender verkey
to the recipient) and in Anoncrypt form otherwise (sealed-box wrapping only). -/
def packRecipient (from_key : Option SecretKey) (cek : Nat) (target_vk : Nat) (nonce : Nat) :
    JweRecipient :=
  let target_xk := xOfEd target_vk
  match from_key with
  | some sk =>
      let sender_vk := verkeyOf sk
      { encrypted_key := CryptBytes.cryptoBox target_xk (xOfEd sender_vk)
          (CryptBytes.cekBytes cek) nonce
        kid := target_vk
        sender := some (CryptBytes.sealedBox target_xk (CryptBytes.vkBytes sender_vk))
        iv := some nonce }
  | none =>
      { encrypted_key := CryptBytes.sealedBox target_xk (CryptBytes.cekBytes cek)
        kid := target_vk
        sender := none
        iv := none }

/-- The recipient loop of `pack_message`, preserving caller order; `i` is the
index into the per-recipient nonce supply. -/
def packRecipients (from_key : Option SecretKey) (cek : Nat) (recipNonce : Nat → Nat) :
    List Nat → Nat → List JweRecipient
  | [], _ => []
  | target_vk :: rest, i =>
      packRecipient from_key cek target_vk (recipNonce i)
        :: packRecipients from_key cek recipNonce rest (i + 1)

/-- Module-level `pack_message(to_verkeys, from_key, message)`.  The fresh
CEK, the per-recipient box nonces and the AEAD nonce are explicit parameters
(`cek`, `recipNonce`, `aead_nonce`).  Returns the structured envelope (the
JSON serialization being the identity on the structure). -/
def pack_message (to_verkeys : List Nat) (from_key : Option SecretKey) (message : String)
    (cek : Nat) (recipNonce : Nat → Nat) (aead_nonce : Nat) : JweEnvelope :=
  let recipients := packRecipients from_key cek recipNonce to_verkeys 0
  let prot : ProtectedHeader :=
    { enc := "xchacha20poly1305_ietf"
      typ := "JWM/1.0"
      alg := if from_key.isSome then "Authcrypt" else "Anoncrypt" }
  let ct := CryptBytes.aeadEnc cek message aead_nonce prot
  { protectedHdr := prot
    recipients := recipients
    iv := aead_nonce
    ciphertext := CryptBytes.ctPart ct
    tag := CryptBytes.tagPart ct }

/-- One recipient's details as returned by `extract_pack_recipients`:
`{sender, nonce, key}` keyed by `kid`. -/
structure PackRecip where
  kid : Nat
  sender : Option CryptBytes
  nonce : Option Nat
  key : CryptBytes
deriving DecidableEq

/-- Modelled from the spec: `extract_pack_recipients` (`wallet/crypto.py`, a
repository file not among the provided sources).  Per spec section 4.3 step 3
and the wire format of section 6, it maps the envelope's `recipients` array,
in envelope order, to each entry's `kid`, optional sealed `sender`, optional
`iv` nonce and wrapped `encrypted_key`. -/
def extract_pack_recipients (rs : List JweRecipient) : List PackRecip :=
  rs.map (fun r => { kid := r.kid, sender := r.sender, nonce := r.iv, key := r.encrypted_key })

/-- Errors raised by module-level `unpack_message` and the primitives it
calls.  `noMatchingKey` carries the kid tuple interpolated into the raised
message (`"No corresponding recipient key found in {}".format(tuple(recips))`);
`cryptoError` models an `AskarError` escaping a primitive. -/
inductive UnpackError where
  | invalidEnvelope
  | unsupportedAlg (alg : String)
  | noMatchingKey (kids : List Nat)
  | missingSender
  | cryptoError
deriving DecidableEq

/-- `extract_payload_key(sender_cek, recip_secret)`: when the entry carries
both a nonce and a sender field, open the sealed sender identity, convert it
to X25519 form and open the authenticated box around the CEK; otherwise open
the sealed box around the CEK with no sender.  Primitive failures are
`cryptoError`. -/
def extract_payload_key (sender_cek : PackRecip) (recip_secret : SecretKey) :
    Except UnpackError (CryptBytes × Option Nat) :=
  match sender_cek.nonce, sender_cek.sender with
  | some nonce, some senderField =>
      match crypto_box_seal_open recip_secret senderField with
      | none => Except.error UnpackError.cryptoError
      | some opened =>
          match decodeVk opened with
          | none => Except.error UnpackError.cryptoError
          | some sender_vk =>
              match crypto_box_open recip_secret (xOfEd sender_vk) sender_cek.key nonce with
              | none => Except.error UnpackError.cryptoError
              | some cek => Except.ok (cek, some sender_vk)
  | _, _ =>
      match crypto_box_seal_open recip_secret sender_cek.key with
      | none => Except.error UnpackError.cryptoError
      | some cek => Except.ok (cek, none)

/-- The trial-resolution loop of `unpack_message`: walk the extracted
recipients in order, query the local key lookup (`session.fetch_key`) for
each `kid`, and stop at the first entry whose kid resolves, extracting the
payload key there.  The first component records the kids queried, in order;
the second is the loop outcome (`ok none` when no entry matched). -/
def trialResolve (lookup : Nat → Option SecretKey) :
    List PackRecip → List Nat × Except UnpackError (Option (Nat × CryptBytes × Option Nat))
  | [] => ([], Except.ok none)
  | r :: rest =>
      match lookup r.kid with
      | some k =>
          ([r.kid],
            match extract_payload_key r k with
            | Except.error e => Except.error e
            | Except.ok (cek, svk) => Except.ok (some (r.kid, cek, svk)))
      | none =>
          let tail := trialResolve lookup rest
          (r.kid :: tail.1, tail.2)

/-- Module-level `unpack_message(session, enc_message)` over an already
decoded envelope, with the session's key store abstracted as `lookup`.
Returns `(message, recip_vk, sender_vk)`. -/
def unpack_message (lookup : Nat → Option SecretKey) (wrapper : JweEnvelope) :
    Except UnpackError (String × Nat × Option Nat) :=
  let alg := wrapper.protectedHdr.alg
  let is_authcrypt := alg == "Authcrypt"
  if !is_authcrypt && alg != "Anoncrypt" then
    Except.error (UnpackError.unsupportedAlg alg)
  else
    let recips := extract_pack_recipients wrapper.recipients
    match (trialResolve lookup recips).2 with
    | Except.error e => Except.error e
    | Except.ok none => Except.error (UnpackError.noMatchingKey (recips.map PackRecip.kid))
    | Except.ok (some (recip_vk, payload_key, sender_vk)) =>
        if sender_vk.isNone && is_authcrypt then
          Except.error UnpackError.missingSender
        else
          match toCekKey payload_key with
          | none => Except.error UnpackError.cryptoError
          | some cek =>
              match aead_decrypt cek (appendBytes wrapper.ciphertext wrapper.tag)
                  wrapper.iv wrapper.protectedHdr with
              | none => Except.error UnpackError.cryptoError
              | some msg => Except.ok (msg, recip_vk, sender_vk)

/-- The sequence of kids for which `unpack_message` queries the local key
lookup (no queries are made when the algorithm check already failed). -/
def unpackQueries (lookup : Nat → Option SecretKey) (wrapper : JweEnvelope) : List Nat :=
  if wrapper.protectedHdr.alg != "Authcrypt" && wrapper.protectedHdr.alg != "Anoncrypt" then []
  else (trialResolve lookup (extract_pack_recipients wrapper.recipients)).1

/-- A local key store holding exactly the secret key of verkey `r`. -/
def singleKeyLookup (r : Nat) : Nat → Option SecretKey :=
  fun v => if v == r then some ⟨r⟩ else none

/-- A local key store holding no keys. -/
def emptyLookup : Nat → Option SecretKey := fun _ => none

/-- Exception classes raised at the wallet boundary: `WalletError`,
`WalletNotFoundError`, `WalletDuplicateError`, with their messages. -/
inductive WalletErr where
  | walletError (msg : String)
  | notFound (msg : String)
  | duplicate (msg : String)
deriving DecidableEq

/-- `AskarWallet.pack_message(message, to_verkeys, from_verkey)`: the wallet
boundary around module-level `pack_message`.  The absent-message check is the
only input validation; a given `from_verkey` is resolved through the key
store before packing. -/
def AskarWallet.packMessage (keyStore : Nat → Option SecretKey) (message : Option String)
    (to_verkeys : List Nat) (from_verkey : Option Nat)
    (cek : Nat) (recipNonce : Nat → Nat) (aead_nonce : Nat) :
    Except WalletErr JweEnvelope :=
  match message with
  | none => Except.error (WalletErr.walletError "Message not provided")
  | some msg =>
      match from_verkey with
      | some fvk =>
          match keyStore fvk with
          | none => Except.error (WalletErr.notFound "Missing key for pack operation")
          | some k => Except.ok (pack_message to_verkeys (some k) msg cek recipNonce aead_nonce)
      | none => Except.ok (pack_message to_verkeys none msg cek recipNonce aead_nonce)

/-- The metadata dict of a DID record, split into the reserved `next_verkey`
key and an abstract remainder (`extra`) standing for all caller-defined
content. -/
structure DidMetadata where
  next_verkey : Option Nat
  extra : Nat
deriving DecidableEq

/-- The `value_json` of a stored DID record:
`{did, method, verkey, verkey_type, metadata}`. -/
structure DidValue where
  did : String
  method : String
  verkey : Nat
  verkey_type : String
  metadata : DidMetadata
deriving DecidableEq

/-- The tags of a stored DID record: `{method, verkey, verkey_type}`. -/
structure DidTags where
  method : String
  verkey : Nat
  verkey_type : String
deriving DecidableEq

/-- A stored DID record: value plus tags. -/
structure DidRecord where
  value : DidValue
  tags : DidTags
deriving DecidableEq

/-- The relevant slice of the Askar store: the set of stored keypairs
(identified by verkey) and the category-`did` records keyed by DID string. -/
structure StoreState where
  keys : List Nat
  dids : List (String × DidRecord)
deriving DecidableEq

/-- `session.handle.fetch(CATEGORY_DID, did)`. -/
def fetchDid (s : StoreState) (did : String) : Option DidRecord :=
  (s.dids.find? (fun p => p.1 == did)).map Prod.snd

/-- `session.handle.replace(CATEGORY_DID, did, value_json, tags)`. -/
def replaceDid (s : StoreState) (did : String) (rec : DidRecord) : StoreState :=
  { s with dids := s.dids.map (fun p => if p.1 == did then (did, rec) else p) }

/-- `session.handle.insert(CATEGORY_DID, did, value_json, tags)`. -/
def insertDid (s : StoreState) (did : String) (rec : DidRecord) : StoreState :=
  { s with dids := s.dids ++ [(did, rec)] }

/-- `session.handle.insert_key(verkey, keypair)`: fails on a duplicate verkey
(the `Except.error` models `AskarErrorCode.DUPLICATE`). -/
def insert_key (s : StoreState) (vk : Nat) : Except Unit StoreState :=
  if s.keys.contains vk then Except.error ()
  else Except.ok { s with keys := s.keys ++ [vk] }

/-- The `try insert_key ... except DUPLICATE: pass` idiom used by
`create_local_did` and `rotate_did_keypair_start`. -/
def insertKeyTolerant (s : StoreState) (vk : Nat) : StoreState :=
  match insert_key s vk with
  | Except.ok s1 => s1
  | Except.error _ => s

/-- DID methods stored by this wallet. -/
inductive DIDMethod where
  | sov
  | key
deriving DecidableEq

/-- Method name as stored in record values and tags. -/
def DIDMethod.methodName : DIDMethod → String
  | DIDMethod.sov => "sov"
  | DIDMethod.key => "key"

/-- Modelled from the spec: whether a DID method supports key rotation
(`DIDMethod.supports_rotation` in `wallet/did_method.py`, a repository file
not among the provided sources).  Per the spec, the method determines whether
rotation is supported and only `did:sov` DIDs rotate. -/
def DIDMethod.supportsKeyRotate : DIDMethod → Bool
  | DIDMethod.sov => true
  | DIDMethod.key => false

/-- Character-level check for the `did:key:` prefix of a DID string. -/
def isDidKeyId : List Char → Bool
  | 'd' :: 'i' :: 'd' :: ':' :: 'k' :: 'e' :: 'y' :: _ => true
  | _ => false

/-- Modelled from the spec: `DIDMethod.from_did` (`wallet/did_method.py`, a
repository file not among the provided sources): the method of a DID is
derived from its identifier text, `did:key:...` identifiers being method KEY
and the rest method SOV. -/
def did_method_of (did : String) : DIDMethod :=
  if isDidKeyId did.data then DIDMethod.key else DIDMethod.sov

/-- Modelled from the spec: `DIDKey.from_public_key(...).did`
(`did/did_key.py`, a repository file not among the provided sources): the
did:key identifier derived from the public key bytes. -/
def did_from_key (vk : Nat) : String := String.append "did:key:z" (toString vk)

/-- The default SOV identifier `bytes_to_b58(verkey_bytes[:16])`, abstracted
to an injective function of the verkey identifier (byte truncation is not
modelled). -/
def did_from_verkey (vk : Nat) : String := toString vk

/-- `AskarWallet.create_local_did(method, key_type, seed, did, metadata)` for
key type ED25519 (the key type every claim exercises and both stored methods
support).  The generated keypair is abstracted to its verkey `newVerkey`
(fresh or seed-derived).  Returns the new store, the DID, the verkey and the
metadata of the returned `DIDInfo`. -/
def create_local_did (s : StoreState) (method : DIDMethod) (didArg : Option String)
    (newVerkey : Nat) (metadataArg : Option DidMetadata) :
    Except WalletErr (StoreState × String × Nat × DidMetadata) :=
  if method == DIDMethod.key && didArg.isSome then
    Except.error (WalletErr.walletError "Not allowed to set DID for DID method 'key'")
  else
    let metadata := metadataArg.getD { next_verkey := none, extra := 0 }
    let s1 := insertKeyTolerant s newVerkey
    let did := match method, didArg with
      | DIDMethod.key, _ => did_from_key newVerkey
      | _, some d => d
      | _, none => did_from_verkey newVerkey
    match fetchDid s1 did with
    | some item =>
        if item.value.verkey != newVerkey then
          Except.error (WalletErr.duplicate "DID already present in wallet")
        else if item.value.metadata != metadata then
          let v1 := { item.value with metadata := metadata }
          Except.ok (replaceDid s1 did { value := v1, tags := item.tags },
            did, newVerkey, metadata)
        else
          Except.ok (s1, did, newVerkey, metadata)
    | none =>
        let v : DidValue :=
          { did := did, method := method.methodName, verkey := newVerkey
            verkey_type := "ed25519", metadata := metadata }
        let t : DidTags :=
          { method := method.methodName, verkey := newVerkey, verkey_type := "ed25519" }
        Except.ok (insertDid s1 did { value := v, tags := t }, did, newVerkey, metadata)

/-- `AskarWallet.rotate_did_keypair_start(did, next_seed)`: reject methods
without rotation support, generate the next keypair (abstracted to its verkey
`newVerkey`), insert it tolerating duplicates, then set
`metadata["next_verkey"]` on the DID record fetched for update, leaving the
tags unchanged.  Returns the new verkey and the new store. -/
def rotate_did_keypair_start (s : StoreState) (did : String) (newVerkey : Nat) :
    Except WalletErr (Nat × StoreState) :=
  if !(did_method_of did).supportsKeyRotate then
    Except.error (WalletErr.walletError "DID method does not support key rotation.")
  else
    let s1 := insertKeyTolerant s newVerkey
    match fetchDid s1 did with
    | none => Except.error (WalletErr.notFound (String.append "Unknown DID: " did))
    | some item =>
        let md1 := { item.value.metadata with next_verkey := some newVerkey }
        let v1 := { item.value with metadata := md1 }
        Except.ok (newVerkey, replaceDid s1 did { value := v1, tags := item.tags })

/-- `AskarWallet.rotate_did_keypair_apply(did)`: on the record fetched for
update, require `next_verkey` (else the `RotationNotStarted` failure
`"Cannot rotate DID key: no next key established"`), then swap `verkey` to
it, update the verkey tag to match and delete `next_verkey`. -/
def rotate_did_keypair_apply (s : StoreState) (did : String) : Except WalletErr StoreState :=
  match fetchDid s did with
  | none => Except.error (WalletErr.notFound (String.append "Unknown DID: " did))
  | some item =>
      match item.value.metadata.next_verkey with
      | none => Except.error (WalletErr.walletError "Cannot rotate DID key: no next key established")
      | some next_verkey =>
          let md1 := { item.value.metadata with next_verkey := none }
          let v1 := { item.value with verkey := next_verkey, metadata := md1 }
          let t1 := { item.tags with verkey := next_verkey }
          Except.ok (replaceDid s did { value := v1, tags := t1 })

/-- The protected header produced by `pack_message` in Anoncrypt mode. -/
def protAnon : ProtectedHeader :=
  { enc := "xchacha20poly1305_ietf", typ := "JWM/1.0", alg := "Anoncrypt" }

/-- The protected header produced by `pack_message` in Authcrypt mode. -/
def protAuth : ProtectedHeader :=
  { enc := "xchacha20poly1305_ietf", typ := "JWM/1.0", alg := "Authcrypt" }

/-- An Authcrypt envelope for recipient verkey 1 whose sealed sender field is
addressed to a different key (X25519 public key 99), so that opening the
sender identity fails at the primitive level. -/
def envSenderSealMismatch : JweEnvelope :=
  { protectedHdr := protAuth
    recipients := [{ encrypted_key := CryptBytes.cryptoBox (xOfEd 1) (xOfEd 2)
                       (CryptBytes.cekBytes 7) 5
                     kid := 1
                     sender := some (CryptBytes.sealedBox (xOfEd 99) (CryptBytes.vkBytes 2))
                     iv := some 5 }]
    iv := 9
    ciphertext := CryptBytes.ctPart (CryptBytes.aeadEnc 7 "m" 9 protAuth)
    tag := CryptBytes.tagPart (CryptBytes.aeadEnc 7 "m" 9 protAuth) }

/-- An Authcrypt envelope for recipient verkey 1 whose single entry carries
no sender and no iv field, with the CEK wrapped in a plain sealed box to the
recipient. -/
def envAuthcryptNoSender : JweEnvelope :=
  { protectedHdr := protAuth
    recipients := [{ encrypted_key := CryptBytes.sealedBox (xOfEd 1) (CryptBytes.cekBytes 7)
                     kid := 1
                     sender := none
                     iv := none }]
    iv := 9
    ciphertext := CryptBytes.ctPart (CryptBytes.aeadEnc 7 "m" 9 protAuth)
    tag := CryptBytes.tagPart (CryptBytes.aeadEnc 7 "m" 9 protAuth) }

/-- An Anoncrypt envelope for recipient verkey 1 whose single entry carries
Authcrypt-style sender and iv fields naming sender verkey 2. -/
def envAnoncryptWithSender : JweEnvelope :=
  { protectedHdr := protAnon
    recipients := [{ encrypted_key := CryptBytes.cryptoBox (xOfEd 1) (xOfEd 2)
                       (CryptBytes.cekBytes 7) 5
                     kid := 1
                     sender := some (CryptBytes.sealedBox (xOfEd 1) (CryptBytes.vkBytes 2))
                     iv := some 5 }]
    iv := 9
    ciphertext := CryptBytes.ctPart (CryptBytes.aeadEnc 7 "m" 9 protAnon)
    tag := CryptBytes.tagPart (CryptBytes.aeadEnc 7 "m" 9 protAnon) }

/-- A plain Anoncrypt envelope for recipient verkey 1 (as produced by
`pack_message` with no sender). -/
def envAnoncryptPlain : JweEnvelope :=
  { protectedHdr := protAnon
    recipients := [{ encrypted_key := CryptBytes.sealedBox (xOfEd 1) (CryptBytes.cekBytes 7)
                     kid := 1
                     sender := none
                     iv := none }]
    iv := 9
    ciphertext := CryptBytes.ctPart (CryptBytes.aeadEnc 7 "m" 9 protAnon)
    tag := CryptBytes.tagPart (CryptBytes.aeadEnc 7 "m" 9 protAnon) }

/-- An Anoncrypt envelope whose recipient list names only verkey 2. -/
def envAnoncryptOther : JweEnvelope :=
  { protectedHdr := protAnon
    recipients := [{ encrypted_key := CryptBytes.sealedBox (xOfEd 2) (CryptBytes.cekBytes 7)
                     kid := 2
                     sender := none
                     iv := none }]
    iv := 9
    ciphertext := CryptBytes.ctPart (CryptBytes.aeadEnc 7 "m" 9 protAnon)
    tag := CryptBytes.tagPart (CryptBytes.aeadEnc 7 "m" 9 protAnon) }

/-- An Anoncrypt envelope for the two recipient verkeys 1 and 2, in that
order. -/
def envTwoRecips : JweEnvelope :=
  { protectedHdr := protAnon
    recipients := [{ encrypted_key := CryptBytes.sealedBox (xOfEd 1) (CryptBytes.cekBytes 7)
                     kid := 1
                     sender := none
                     iv := none },
                   { encrypted_key := CryptBytes.sealedBox (xOfEd 2) (CryptBytes.cekBytes 7)
                     kid := 2
                     sender := none
                     iv := none }]
    iv := 9
    ciphertext := CryptBytes.ctPart (CryptBytes.aeadEnc 7 "m" 9 protAnon)
    tag := CryptBytes.tagPart (CryptBytes.aeadEnc 7 "m" 9 protAnon) }

/-- Caller metadata value one (no rotation pending). -/
def mdOne : DidMetadata := { next_verkey := none, extra := 1 }

/-- Caller metadata value two, distinct from `mdOne`. -/
def mdTwo : DidMetadata := { next_verkey := none, extra := 2 }

/-- A stored DID record for DID "d" with verkey 7 and metadata `mdOne`. -/
def recD : DidRecord :=
  { value := { did := "d", method := "sov", verkey := 7, verkey_type := "ed25519"
               metadata := mdOne }
    tags := { method := "sov", verkey := 7, verkey_type := "ed25519" } }

/-- The record `recD` with its stored metadata replaced by `mdTwo`. -/
def recDmdTwo : DidRecord :=
  { value := { recD.value with metadata := mdTwo }, tags := recD.tags }

/-- A store holding the keypair for verkey 7 and the DID record `recD`. -/
def storeD : StoreState := { keys := [7], dids := [("d", recD)] }

theorem packRecipient_kid (f : Option SecretKey) (cek t n : Nat) :
    (packRecipient f cek t n).kid = t := by
  cases f <;> rfl

theorem packRecipients_map_kid (f : Option SecretKey) (cek : Nat) (rn : Nat → Nat) :
    ∀ (R : List Nat) (i : Nat), (packRecipients f cek rn R i).map JweRecipient.kid = R := by
  intro R
  induction R with
  | nil => intro i; rfl
  | cons t rest ih =>
      intro i
      simp [packRecipients, packRecipient_kid, ih (i + 1)]

theorem packRecipients_anon_fields (cek : Nat) (rn : Nat → Nat) :
    ∀ (R : List Nat) (i : Nat),
      (packRecipients none cek rn R i).all (fun e => e.sender.isNone && e.iv.isNone) = true := by
  intro R
  induction R with
  | nil => intro i; rfl
  | cons t rest ih =>
      intro i
      simp only [packRecipients, List.all_cons, ih (i + 1), Bool.and_true]
      rfl

theorem packRecipients_auth_fields (sk : SecretKey) (cek : Nat) (rn : Nat → Nat) :
    ∀ (R : List Nat) (i : Nat),
      (packRecipients (some sk) cek rn R i).all (fun e => e.sender.isSome && e.iv.isSome) = true := by
  intro R
  induction R with
  | nil => intro i; rfl
  | cons t rest ih =>
      intro i
      simp only [packRecipients, List.all_cons, ih (i + 1), Bool.and_true]
      rfl

theorem trialResolve_pack (sender : Option SecretKey) (cek : Nat) (rn : Nat → Nat) (r : Nat) :
    ∀ (R : List Nat) (i : Nat), r ∈ R →
      (trialResolve (singleKeyLookup r)
          (extract_pack_recipients (packRecipients sender cek rn R i))).2
        = Except.ok (some (r, CryptBytes.cekBytes cek, sender.map verkeyOf)) := by
  intro R
  induction R with
  | nil => intro i h; cases h
  | cons t rest ih =>
      intro i hmem
      by_cases ht : t = r
      · subst ht
        cases sender with
        | none =>
            simp [packRecipients, packRecipient, extract_pack_recipients, trialResolve,
              singleKeyLookup, extract_payload_key, crypto_box_seal_open, xOfEd, verkeyOf]
        | some sk =>
            simp [packRecipients, packRecipient, extract_pack_recipients, trialResolve,
              singleKeyLookup, extract_payload_key, crypto_box_seal_open, crypto_box_open,
              decodeVk, xOfEd, verkeyOf]
      · have hr : r ∈ rest := by
          cases hmem with
          | head => exact absurd rfl ht
          | tail _ h => exact h
        have hlk : singleKeyLookup r t = none := by
          simp [singleKeyLookup, ht]
        simp only [packRecipients, extract_pack_recipients, List.map_cons, trialResolve,
          packRecipient_kid, hlk]
        exact ih (i + 1) hr

/-- Claim C1: unpacking `pack_message(R, sender, P)` with the local secret
key of any one recipient `r` of `R` succeeds and returns exactly the
plaintext `P`, that recipient's verkey, and the sender's verkey when a
sender key was given (no sender otherwise). -/
theorem pack_unpack_roundtrip (m : String) (R : List Nat) (r : Nat) (hr : r ∈ R)
    (cek : Nat) (rn : Nat → Nat) (an : Nat) (sender : Option SecretKey) :
    unpack_message (singleKeyLookup r) (pack_message R sender m cek rn an)
      = Except.ok (m, r, sender.map verkeyOf) := by
  have htr := trialResolve_pack sender cek rn r R 0 hr
  cases sender with
  | none =>
      simp [unpack_message, pack_message, htr, toCekKey, appendBytes, aead_decrypt]
  | some sk =>
      simp [unpack_message, pack_message, htr, toCekKey, appendBytes, aead_decrypt]

/-- Witness for C1: a concrete Authcrypt round trip, recipient verkey 5,
sender verkey 6. -/
theorem pack_unpack_roundtrip_witness :
    (5 ∈ [4, 5])
    ∧ unpack_message (singleKeyLookup 5) (pack_message [4, 5] (some ⟨6⟩) "hi" 3 (fun _ => 4) 9)
        = Except.ok ("hi", 5, some 6) :=
  ⟨by decide, pack_unpack_roundtrip "hi" [4, 5] 5 (by decide) 3 (fun _ => 4) 9 (some ⟨6⟩)⟩

/-- Claim C2: the envelope produced by `pack_message` has mode `Authcrypt`
exactly when a sender key is given and `Anoncrypt` otherwise; its recipient
entries are exactly the caller-supplied verkeys in caller order (duplicates
preserved); in Anoncrypt mode no entry carries sender or iv fields, and in
Authcrypt mode every entry carries them. -/
theorem pack_envelope_structure (R : List Nat) (m : String) (sk : SecretKey)
    (anyKey : Option SecretKey) (cek : Nat) (rn : Nat → Nat) (an : Nat) :
    ((pack_message R (some sk) m cek rn an).protectedHdr.alg = "Authcrypt")
    ∧ ((pack_message R none m cek rn an).protectedHdr.alg = "Anoncrypt")
    ∧ ((pack_message R anyKey m cek rn an).recipients.map JweRecipient.kid = R)
    ∧ ((pack_message R none m cek rn an).recipients.all
          (fun e => e.sender.isNone && e.iv.isNone) = true)
    ∧ ((pack_message R (some sk) m cek rn an).recipients.all
          (fun e => e.sender.isSome && e.iv.isSome) = true) :=
  ⟨rfl, rfl, packRecipients_map_kid anyKey cek rn R 0,
    packRecipients_anon_fields cek rn R 0, packRecipients_auth_fields sk cek rn R 0⟩

/-- Claim C10: at the wallet boundary, packing with an empty recipient list
and a non-absent message succeeds and yields an envelope with zero recipient
entries; the only wallet-boundary input check is that the message is not
absent. -/
theorem pack_empty_recipients_no_error (keyStore : Nat → Option SecretKey) (m : String)
    (cek : Nat) (rn : Nat → Nat) (an : Nat) :
    (AskarWallet.packMessage keyStore (some m) [] none cek rn an
        = Except.ok (pack_message [] none m cek rn an))
    ∧ ((pack_message [] none m cek rn an).recipients = [])
    ∧ (∀ (R : List Nat) (fv : Option Nat),
        AskarWallet.packMessage keyStore none R fv cek rn an
          = Except.error (WalletErr.walletError "Message not provided")) :=
  ⟨rfl, rfl, fun _ _ => rfl⟩

theorem trialResolve_queries (lookup : Nat → Option SecretKey) :
    ∀ (l : List PackRecip),
      (trialResolve lookup l).1
        = (l.map PackRecip.kid).takeWhile (fun v => (lookup v).isNone)
          ++ (match l.find? (fun e => (lookup e.kid).isSome) with
              | none => []
              | some e => [e.kid]) := by
  intro l
  induction l with
  | nil => rfl
  | cons a l ih =>
      cases h : lookup a.kid with
      | some k =>
          simp [trialResolve, List.takeWhile, List.find?, h]
      | none =>
          simp [trialResolve, List.takeWhile, List.find?, h, ih]

theorem trialResolve_find_none (lookup : Nat → Option SecretKey) :
    ∀ (l : List PackRecip), l.find? (fun e => (lookup e.kid).isSome) = none →
      (trialResolve lookup l).2 = Except.ok none := by
  intro l
  induction l with
  | nil => intro _; rfl
  | cons a l ih =>
      intro h
      cases hk : lookup a.kid with
      | some k => simp [List.find?, hk] at h
      | none =>
          simp only [List.find?, hk, Option.isSome_none] at h
          simp [trialResolve, hk, ih h]

theorem trialResolve_find_some (lookup : Nat → Option SecretKey) :
    ∀ (l : List PackRecip) (e : PackRecip) (k : SecretKey),
      l.find? (fun e2 => (lookup e2.kid).isSome) = some e → lookup e.kid = some k →
      (trialResolve lookup l).2
        = match extract_payload_key e k with
          | Except.error er => Except.error er
          | Except.ok (cek, svk) => Except.ok (some (e.kid, cek, svk)) := by
  intro l
  induction l with
  | nil => intro e k h _; simp [List.find?] at h
  | cons a l ih =>
      intro e k hfind hk
      cases ha : lookup a.kid with
      | some k2 =>
          have hea : a = e := by simp [List.find?, ha] at hfind; exact hfind
          subst hea
          have hkk : k2 = k := by rw [ha] at hk; exact (Option.some_inj.mp hk)
          subst hkk
          simp [trialResolve, ha]
      | none =>
          have hfind2 : l.find? (fun e2 => (lookup e2.kid).isSome) = some e := by
            simpa [List.find?, ha] using hfind
          simp [trialResolve, ha, ih e k hfind2 hk]

theorem trialResolve_ok_mem (lookup : Nat → Option SecretKey) :
    ∀ (l : List PackRecip) (rv : Nat) (cek : CryptBytes) (svk : Option Nat),
      (trialResolve lookup l).2 = Except.ok (some (rv, cek, svk)) →
      ∃ e k, e ∈ l ∧ lookup e.kid = some k ∧ e.kid = rv
        ∧ extract_payload_key e k = Except.ok (cek, svk) := by
  intro l
  induction l with
  | nil => intro rv cek svk h; simp [trialResolve] at h
  | cons a l ih =>
      intro rv cek svk h
      cases ha : lookup a.kid with
      | some k =>
          rw [trialResolve] at h
          rw [ha] at h
          simp only at h
          cases hep : extract_payload_key a k with
          | error er => rw [hep] at h; simp at h
          | ok p =>
              rw [hep] at h
              obtain ⟨c, s⟩ := p
              simp only [Except.ok.injEq, Option.some.injEq, Prod.mk.injEq] at h
              obtain ⟨hkid, hc, hs⟩ := h
              exact ⟨a, k, List.mem_cons_self a l, ha, hkid, by rw [hep, hc, hs]⟩
      | none =>
          rw [trialResolve] at h
          rw [ha] at h
          simp only at h
          obtain ⟨e, k, hmem, hke, hkid, hep⟩ := ih rv cek svk h
          exact ⟨e, k, List.mem_cons_of_mem a hmem, hke, hkid, hep⟩

theorem unpack_ok_inv (lookup : Nat → Option SecretKey) (env : JweEnvelope)
    (m : String) (rv : Nat) (svk : Option Nat)
    (h : unpack_message lookup env = Except.ok (m, rv, svk)) :
    (∃ c, (trialResolve lookup (extract_pack_recipients env.recipients)).2
        = Except.ok (some (rv, c, svk)))
    ∧ (svk.isNone && (env.protectedHdr.alg == "Authcrypt")) = false := by
  simp only [unpack_message] at h
  split at h
  · exact absurd h (by simp)
  · split at h
    · exact absurd h (by simp)
    · exact absurd h (by simp)
    · rename_i recip_vk payload_key sender_vk heq
      split at h
      · exact absurd h (by simp)
      · rename_i hguard
        split at h
        · exact absurd h (by simp)
        · split at h
          · exact absurd h (by simp)
          · rename_i cek hcek msg hmsg
            simp only [Except.ok.injEq, Prod.mk.injEq] at h
            obtain ⟨hm, hrv, hsvk⟩ := h
            subst hrv; subst hsvk
            refine ⟨⟨payload_key, heq⟩, ?_⟩
            simpa using hguard

theorem extract_payload_key_missing (e : PackRecip) (k : SecretKey)
    (hmiss : e.sender = none ∨ e.nonce = none) (c : CryptBytes) (svk : Option Nat)
    (h : extract_payload_key e k = Except.ok (c, svk)) : svk = none := by
  unfold extract_payload_key at h
  cases hn : e.nonce with
  | none =>
      rw [hn] at h
      cases hso : crypto_box_seal_open k e.key with
      | none => rw [hso] at h; simp at h
      | some c2 =>
          rw [hso] at h
          simp only [Except.ok.injEq, Prod.mk.injEq] at h
          exact h.2.symm
  | some n =>
      have hs : e.sender = none := by
        cases hmiss with
        | inl hs => exact hs
        | inr hn2 => rw [hn] at hn2; cases hn2
      rw [hn, hs] at h
      cases hso : crypto_box_seal_open k e.key with
      | none => rw [hso] at h; simp at h
      | some c2 =>
          rw [hso] at h
          simp only [Except.ok.injEq, Prod.mk.injEq] at h
          exact h.2.symm

/-- Claim C3: `unpack_message` queries the local key lookup only for kids
listed in the envelope's recipients, in envelope order, stopping at the
first entry whose kid resolves; that first resolving entry is the one whose
wrapped key is used (later entries are not tried). -/
theorem unpack_trial_resolution (env : JweEnvelope) (lookup : Nat → Option SecretKey)
    (halg : env.protectedHdr.alg = "Authcrypt" ∨ env.protectedHdr.alg = "Anoncrypt")
    (hnodup : (env.recipients.map JweRecipient.kid).Nodup) :
    (unpackQueries lookup env
        = ((extract_pack_recipients env.recipients).map PackRecip.kid).takeWhile
            (fun v => (lookup v).isNone)
          ++ (match (extract_pack_recipients env.recipients).find?
                  (fun e => (lookup e.kid).isSome) with
              | none => []
              | some e => [e.kid]))
    ∧ ((extract_pack_recipients env.recipients).find?
          (fun e => (lookup e.kid).isSome) = none →
        (trialResolve lookup (extract_pack_recipients env.recipients)).2 = Except.ok none)
    ∧ (∀ e k, (extract_pack_recipients env.recipients).find?
            (fun e2 => (lookup e2.kid).isSome) = some e → lookup e.kid = some k →
        (trialResolve lookup (extract_pack_recipients env.recipients)).2
          = match extract_payload_key e k with
            | Except.error er => Except.error er
            | Except.ok (cek, svk) => Except.ok (some (e.kid, cek, svk))) := by
  refine ⟨?_, fun hf => trialResolve_find_none lookup _ hf,
    fun e k hf hk => trialResolve_find_some lookup _ e k hf hk⟩
  unfold unpackQueries
  rcases halg with h | h <;> rw [h] <;> simp <;> exact trialResolve_queries lookup _

/-- Witness for C3: for a two-recipient envelope with only the second
recipient's key held locally, the queried kids are the declared kids in
envelope order up to and including the first match. -/
theorem unpack_trial_resolution_witness :
    unpackQueries (singleKeyLookup 2) envTwoRecips
      = ((extract_pack_recipients envTwoRecips.recipients).map PackRecip.kid).takeWhile
          (fun v => (singleKeyLookup 2 v).isNone)
        ++ (match (extract_pack_recipients envTwoRecips.recipients).find?
                (fun e => (singleKeyLookup 2 e.kid).isSome) with
            | none => []
            | some e => [e.kid]) :=
  (unpack_trial_resolution envTwoRecips (singleKeyLookup 2) (Or.inr rfl) (by decide)).1

/-- Counterexample to C4 as stated: an Authcrypt envelope whose matched
entry carries a sender field that fails to open (sealed to the wrong key)
makes `unpack_message` fail with a primitive crypto error, not with
`MissingSender`. -/
theorem authcrypt_sender_open_failure_error :
    unpack_message (singleKeyLookup 1) envSenderSealMismatch
        = Except.error UnpackError.cryptoError
    ∧ Except.error UnpackError.cryptoError
        ≠ (Except.error UnpackError.missingSender
            : Except UnpackError (String × Nat × Option Nat)) :=
  ⟨by decide, by decide⟩

/-- Claim C4 (amended): for an Authcrypt envelope, a successful unpack never
returns an absent sender; and when the matched entry lacks the sender or iv
field while its wrapped key unseals for the matched recipient,
`unpack_message` fails with `MissingSender`.  (When opening the sealed
sender identity itself fails, the failure is a primitive crypto error
instead.) -/
theorem authcrypt_no_silent_downgrade (env : JweEnvelope) (lookup : Nat → Option SecretKey)
    (halg : env.protectedHdr.alg = "Authcrypt") :
    (∀ m rv svk, unpack_message lookup env = Except.ok (m, rv, svk) → svk.isSome = true)
    ∧ (∀ e k, (extract_pack_recipients env.recipients).find?
          (fun e2 => (lookup e2.kid).isSome) = some e →
        lookup e.kid = some k → (e.nonce = none ∨ e.sender = none) →
        (crypto_box_seal_open k e.key).isSome = true →
        unpack_message lookup env = Except.error UnpackError.missingSender) := by
  constructor
  · intro m rv svk h
    have h2 := (unpack_ok_inv lookup env m rv svk h).2
    rw [halg] at h2
    simpa using h2
  · intro e k hfind hk hmiss hseal
    obtain ⟨c, hc⟩ := Option.isSome_iff_exists.mp hseal
    have hep : extract_payload_key e k = Except.ok (c, none) := by
      unfold extract_payload_key
      cases hn : e.nonce with
      | none => rw [hc]
      | some n =>
          have hs : e.sender = none := by
            cases hmiss with
            | inl hn2 => rw [hn] at hn2; cases hn2
            | inr hs => exact hs
          rw [hs, hc]
    have htr := trialResolve_find_some lookup (extract_pack_recipients env.recipients) e k hfind hk
    rw [hep] at htr
    simp [unpack_message, halg, htr]

/-- Witness for C4 (amended): a concrete Authcrypt envelope with an
Anoncrypt-shaped matched entry fails with `MissingSender`. -/
theorem authcrypt_no_silent_downgrade_witness :
    unpack_message (singleKeyLookup 1) envAuthcryptNoSender
      = Except.error UnpackError.missingSender :=
  (authcrypt_no_silent_downgrade envAuthcryptNoSender (singleKeyLookup 1) rfl).2
    ⟨1, none, none, CryptBytes.sealedBox (xOfEd 1) (CryptBytes.cekBytes 7)⟩ ⟨1⟩
    (by decide) (by decide) (Or.inl rfl) (by decide)

/-- Counterexample to C5 as stated: an Anoncrypt envelope whose matched
entry carries sender and iv fields is processed through the Authcrypt entry
path, and `unpack_message` returns a present sender verkey. -/
theorem anoncrypt_with_sender_fields_returns_sender :
    unpack_message (singleKeyLookup 1) envAnoncryptWithSender = Except.ok ("m", 1, some 2)
    ∧ (some 2 : Option Nat) ≠ none :=
  ⟨by decide, by decide⟩

/-- Claim C5 (amended): for an Anoncrypt envelope whose matched recipient
entry (the first entry whose kid resolves to a locally held key) lacks the
sender field or the iv field (as every entry of an envelope produced by
`pack_message` in Anoncrypt mode does), a successful unpack returns an
absent sender verkey. -/
theorem anoncrypt_sender_absent (env : JweEnvelope) (lookup : Nat → Option SecretKey)
    (halg : env.protectedHdr.alg = "Anoncrypt")
    (e : PackRecip) (k : SecretKey)
    (hfind : (extract_pack_recipients env.recipients).find?
        (fun e2 => (lookup e2.kid).isSome) = some e)
    (hk : lookup e.kid = some k)
    (hmiss : e.sender = none ∨ e.nonce = none)
    (m : String) (rv : Nat) (svk : Option Nat)
    (h : unpack_message lookup env = Except.ok (m, rv, svk)) : svk = none := by
  obtain ⟨⟨c, hc⟩, _⟩ := unpack_ok_inv lookup env m rv svk h
  have htr := trialResolve_find_some lookup (extract_pack_recipients env.recipients) e k hfind hk
  rw [htr] at hc
  cases hep : extract_payload_key e k with
  | error er => rw [hep] at hc; simp at hc
  | ok p =>
      obtain ⟨c2, s2⟩ := p
      rw [hep] at hc
      simp only [Except.ok.injEq, Option.some.injEq, Prod.mk.injEq] at hc
      rw [← hc.2.2]
      exact extract_payload_key_missing e k hmiss c2 s2 hep

/-- Witness for C5 (amended): unpacking a plain Anoncrypt envelope whose
matched entry carries neither sender nor iv returns no sender. -/
theorem anoncrypt_sender_absent_witness :
    unpack_message (singleKeyLookup 1) envAnoncryptPlain = Except.ok ("m", 1, none)
    ∧ (none : Option Nat) = none :=
  ⟨by decide,
    anoncrypt_sender_absent envAnoncryptPlain (singleKeyLookup 1) rfl
      ⟨1, none, none, CryptBytes.sealedBox (xOfEd 1) (CryptBytes.cekBytes 7)⟩ ⟨1⟩
      (by decide) (by decide) (Or.inl rfl) "m" 1 none (by decide)⟩

/-- Claim C6 refuted (the code leaks): the no-match failure of
`unpack_message` interpolates the envelope's recipient kid tuple into the
error, so two envelopes with different recipient lists produce different
error content. -/
theorem no_matching_key_error_reveals_recipients :
    unpack_message emptyLookup envAnoncryptPlain
        = Except.error (UnpackError.noMatchingKey [1])
    ∧ unpack_message emptyLookup envAnoncryptOther
        = Except.error (UnpackError.noMatchingKey [2])
    ∧ UnpackError.noMatchingKey [1] ≠ UnpackError.noMatchingKey [2] :=
  ⟨by decide, by decide, by decide⟩

theorem insertKeyTolerant_dids (s : StoreState) (vk : Nat) :
    (insertKeyTolerant s vk).dids = s.dids := by
  by_cases h : vk ∈ s.keys <;> simp [insertKeyTolerant, insert_key, h]

theorem fetchDid_insertKeyTolerant (s : StoreState) (vk : Nat) (did : String) :
    fetchDid (insertKeyTolerant s vk) did = fetchDid s did := by
  unfold fetchDid
  rw [insertKeyTolerant_dids]

theorem find_replace (did : String) (r : DidRecord) :
    ∀ (l : List (String × DidRecord)),
      (l.find? (fun p => p.1 == did)).isSome = true →
      (l.map (fun p => if p.1 == did then (did, r) else p)).find? (fun p => p.1 == did)
        = some (did, r) := by
  intro l
  induction l with
  | nil => intro h; simp [List.find?] at h
  | cons a l ih =>
      intro h
      by_cases ha : (a.1 == did) = true
      · have haeq : a.1 = did := by simpa using ha
        have hmap : (a :: l).map (fun p => if p.1 == did then (did, r) else p)
            = (did, r) :: l.map (fun p => if p.1 == did then (did, r) else p) := by
          simp [List.map_cons, haeq]
        rw [hmap, List.find?_cons_of_pos _ (by simp)]
      · have ha2 : (a.1 == did) = false := by simpa using ha
        rw [List.find?_cons_of_neg l (by simp [ha2])] at h
        rw [List.map_cons, if_neg (by simp [ha2]),
          List.find?_cons_of_neg _ (by simp [ha2])]
        exact ih h

theorem fetchDid_replaceDid (s : StoreState) (did : String) (r rec : DidRecord)
    (h : fetchDid s did = some rec) :
    fetchDid (replaceDid s did r) did = some r := by
  have hs : (s.dids.find? (fun p => p.1 == did)).isSome = true := by
    unfold fetchDid at h
    cases hf : s.dids.find? (fun p => p.1 == did) with
    | none => rw [hf] at h; cases h
    | some p => rfl
  unfold fetchDid replaceDid
  rw [find_replace did r s.dids hs]
  rfl

/-- Claim C7: `rotate_did_keypair_start` followed by `rotate_did_keypair_apply`
swaps the DID record's verkey to the new verkey, updates the verkey tag to
match, and clears the pending `next_verkey` metadata; `apply` on a record
with no pending `next_verkey` fails with the rotation-not-started error. -/
theorem rotate_start_apply (s : StoreState) (did : String) (rec : DidRecord) (nv : Nat)
    (hdid : fetchDid s did = some rec)
    (hrot : (did_method_of did).supportsKeyRotate = true) :
    (∃ s1, rotate_did_keypair_start s did nv = Except.ok (nv, s1)
      ∧ ∃ rec1, fetchDid s1 did = some rec1
        ∧ rec1.value.metadata.next_verkey = some nv
        ∧ ∃ s2, rotate_did_keypair_apply s1 did = Except.ok s2
          ∧ ∃ rec2, fetchDid s2 did = some rec2
            ∧ rec2.value.verkey = nv
            ∧ rec2.tags.verkey = nv
            ∧ rec2.value.metadata.next_verkey = none)
    ∧ (rec.value.metadata.next_verkey = none →
        rotate_did_keypair_apply s did
          = Except.error (WalletErr.walletError "Cannot rotate DID key: no next key established")) := by
  have hd1 : fetchDid (insertKeyTolerant s nv) did = some rec := by
    rw [fetchDid_insertKeyTolerant]; exact hdid
  set rec1 : DidRecord :=
    { value := { rec.value with
        metadata := { rec.value.metadata with next_verkey := some nv } }
      tags := rec.tags } with hrec1
  set s1 : StoreState := replaceDid (insertKeyTolerant s nv) did rec1 with hs1
  have hf1 : fetchDid s1 did = some rec1 :=
    fetchDid_replaceDid (insertKeyTolerant s nv) did rec1 rec hd1
  set rec2 : DidRecord :=
    { value := { rec1.value with
        verkey := nv
        metadata := { rec1.value.metadata with next_verkey := none } }
      tags := { rec1.tags with verkey := nv } } with hrec2
  set s2 : StoreState := replaceDid s1 did rec2 with hs2
  have hf2 : fetchDid s2 did = some rec2 :=
    fetchDid_replaceDid s1 did rec2 rec1 hf1
  constructor
  · refine ⟨s1, ?_, rec1, hf1, rfl, s2, ?_, rec2, hf2, rfl, rfl, rfl⟩
    · simp [rotate_did_keypair_start, hrot, hd1, hs1, hrec1]
    · simp [rotate_did_keypair_apply, hf1, hs2, hrec2, hrec1]
  · intro hn
    simp [rotate_did_keypair_apply, hdid, hn]

/-- Witness for C7: concrete rotation of DID "d" from verkey 7 to verkey 42. -/
theorem rotate_start_apply_witness :
    (∃ s1, rotate_did_keypair_start storeD "d" 42 = Except.ok (42, s1)
      ∧ ∃ rec1, fetchDid s1 "d" = some rec1
        ∧ rec1.value.metadata.next_verkey = some 42
        ∧ ∃ s2, rotate_did_keypair_apply s1 "d" = Except.ok s2
          ∧ ∃ rec2, fetchDid s2 "d" = some rec2
            ∧ rec2.value.verkey = 42
            ∧ rec2.tags.verkey = 42
            ∧ rec2.value.metadata.next_verkey = none)
    ∧ (recD.value.metadata.next_verkey = none →
        rotate_did_keypair_apply storeD "d"
          = Except.error (WalletErr.walletError "Cannot rotate DID key: no next key established")) :=
  rotate_start_apply storeD "d" recD 42 (by decide) (by decide)

/-- Counterexample to C8 as stated: re-creating DID "d" with the matching
verkey 7 but different caller metadata `mdTwo` succeeds and replaces the
stored metadata (previously `mdOne`) with `mdTwo` instead of keeping it. -/
theorem create_local_did_metadata_overwrite_cex :
    create_local_did storeD DIDMethod.sov (some "d") 7 (some mdTwo)
        = Except.ok (replaceDid storeD "d" recDmdTwo, "d", 7, mdTwo)
    ∧ fetchDid (replaceDid storeD "d" recDmdTwo) "d" = some recDmdTwo
    ∧ recDmdTwo.value.metadata ≠ recD.value.metadata :=
  ⟨by decide, by decide, by decide⟩

/-- Claim C8 (amended): duplicate DID creation with a verkey equal to the
stored record's verkey succeeds without error, after which the stored
metadata equals the caller-supplied metadata (an overwrite when they
differed, a no-op when equal); a differing verkey is rejected as a
duplicate. -/
theorem create_local_did_duplicate_behavior (s : StoreState) (did : String) (rec : DidRecord)
    (nv : Nat) (md : DidMetadata) (hdid : fetchDid s did = some rec) :
    (rec.value.verkey ≠ nv →
        create_local_did s DIDMethod.sov (some did) nv (some md)
          = Except.error (WalletErr.duplicate "DID already present in wallet"))
    ∧ (rec.value.verkey = nv →
        ∃ s1, create_local_did s DIDMethod.sov (some did) nv (some md)
            = Except.ok (s1, did, nv, md)
          ∧ fetchDid s1 did
              = some { value := { rec.value with metadata := md }, tags := rec.tags }) := by
  have hd1 : fetchDid (insertKeyTolerant s nv) did = some rec := by
    rw [fetchDid_insertKeyTolerant]; exact hdid
  constructor
  · intro hne
    have hbne : (rec.value.verkey != nv) = true := by simpa using hne
    simp [create_local_did, hd1, hbne]
  · intro heq
    have hbne : (rec.value.verkey != nv) = false := by simpa using heq
    by_cases hmd : rec.value.metadata = md
    · refine ⟨insertKeyTolerant s nv, ?_, ?_⟩
      · have hmdb : (rec.value.metadata != md) = false := by simpa using hmd
        simp [create_local_did, hd1, hbne, hmdb]
      · rw [hd1]
        congr 1
        cases rec with
        | mk v t =>
            cases v with
            | mk d mth vk vkt mdv =>
                simp at hmd
                simp [hmd]
    · refine ⟨replaceDid (insertKeyTolerant s nv) did
        { value := { rec.value with metadata := md }, tags := rec.tags }, ?_, ?_⟩
      · have hmdb : (rec.value.metadata != md) = true := by simpa using hmd
        simp [create_local_did, hd1, hbne, hmdb]
      · exact fetchDid_replaceDid _ did _ rec hd1

/-- Witness for C8 (amended): the concrete duplicate creation of DID "d"
with matching verkey 7 and new metadata `mdTwo`. -/
theorem create_local_did_duplicate_behavior_witness :
    ∃ s1, create_local_did storeD DIDMethod.sov (some "d") 7 (some mdTwo)
        = Except.ok (s1, "d", 7, mdTwo)
      ∧ fetchDid s1 "d"
          = some { value := { recD.value with metadata := mdTwo }, tags := recD.tags } :=
  (create_local_did_duplicate_behavior storeD "d" recD 7 mdTwo (by decide)).2 rfl
